import Mathlib

/-!
Shallow embedding of the sparse-checkout synchronization engine of the
`focus` repository, covering `operations/src/sync.rs` (`run`,
`wait_for_machine_to_be_idle`), `operations/src/status.rs`
(`relative_time`), and `internals/src/lib/operation/selection.rs`
(`mutate` / `add` / `remove`).

External collaborators (the git object database, the platform session-state
probe, the selection store, the build-graph sync step) are abstracted as
fields of an environment record holding the values the code observes from
them; the control flow of the embedded functions mirrors the Rust source
statement by statement.  Side effects performed along the way are recorded
in an event trace, in the order the source performs them.
-/

namespace Focus

/-- Session activity status reported by the host platform
(`focus_platform::session_state::SessionStatus`).  The sync code matches
only on `Active`; the `Idle` and undeterminable cases are handled
identically by the wildcard arm of its `match`. -/
inductive SessionStatus where
  | active
  | idle
  | unknown
deriving DecidableEq

/-- The two `bail!` cases of `wait_for_machine_to_be_idle`'s parameter
validation. -/
inductive IdleConfigError where
  | maxWaitLessThanIdleDuration
  | pollIntervalGreaterThanMaxWait
deriving DecidableEq

/-- The poll loop of `wait_for_machine_to_be_idle`.  Wall-clock time is
modelled as advancing by `poll_interval` per sleep, so after `k` completed
sleeps the elapsed time is `k * poll_interval`; the loop samples the
session state at `k = 0, 1, ...` while `k * poll_interval ≤ max_wait`,
returns `true` at the first non-`active` sample, and `false` once the bound
is exceeded with every sample `active`.  `fuel` counts the remaining
in-bound samples and makes the recursion structural; the caller passes
`max_wait / poll_interval + 1`, the exact number of in-bound samples when
`poll_interval > 0`. -/
def waitLoop (states : Nat → SessionStatus) : Nat → Nat → Bool
  | 0, _ => false
  | fuel + 1, k =>
    match states k with
    | .active => waitLoop states fuel (k + 1)
    | _ => true

/-- `PREEMPTIVE_SYNC_MAX_WAIT_MILLIS` from `sync.rs` (the non-test value). -/
def PREEMPTIVE_SYNC_MAX_WAIT_MILLIS : Nat := 30000

/-- `PREEMPTIVE_SYNC_POLL_INTERVAL_MILLIS` from `sync.rs`. -/
def PREEMPTIVE_SYNC_POLL_INTERVAL_MILLIS : Nat := 100

/-- `wait_for_machine_to_be_idle(idle_duration, max_wait, poll_interval)`
from `sync.rs`.  Durations are in milliseconds; the successive host
session-state samples are abstracted as `states`. -/
def wait_for_machine_to_be_idle (states : Nat → SessionStatus)
    (idle_duration max_wait poll_interval : Nat) :
    Except IdleConfigError Bool :=
  if max_wait < idle_duration then
    .error .maxWaitLessThanIdleDuration
  else if poll_interval > max_wait then
    .error .pollIntervalGreaterThanMaxWait
  else
    .ok (waitLoop states (max_wait / poll_interval + 1) 0)

/-- `SyncMode` from `sync.rs`. -/
inductive SyncMode where
  | normal
  | preemptive (force : Bool)
deriving DecidableEq

/-- `SyncStatus` from `sync.rs`. -/
inductive SyncStatus where
  | success
  | skippedSyncPointUnchanged
  | skippedSyncPointDifferenceIrrelevant
  | skippedPreemptiveSyncDisabled
  | skippedPreemptiveSyncCancelledByActivity
deriving DecidableEq

/-- `SyncResult` from `sync.rs`.  Commit ids (`git2::Oid`) are modelled as
natural numbers. -/
structure SyncResult where
  checked_out : Bool
  commit_id : Option Nat
  status : SyncStatus
deriving DecidableEq

/-- The ways the embedded `run` can fail (`bail!`, a propagated `?` error,
or an `unwrap` panic). -/
inductive SyncError where
  | idleWaitFailed (e : IdleConfigError)
  | notFocusedRepo
  | ensureCleanFailed
  | noPrefetchCommit
  | syncFailed
  | panicked
deriving DecidableEq

/-- Externally visible actions `run` performs, recorded in source order. -/
inductive Event where
  | consultedIdle
  | acquiredLock
  | checkedSparseFile
  | ranEnsureClean
  | createdBackup
  | ranRepoSync
  | wrotePreemptiveSyncPoint (commit : Nat)
  | wroteSyncPoint
  | disarmedBackup
deriving DecidableEq

/-- Whether an event mutates the filesystem (the sparse-checkout file, the
working tree, or the sync-point reference files). -/
def Event.isMutation : Event → Bool
  | .createdBackup => true
  | .ranRepoSync => true
  | .wrotePreemptiveSyncPoint _ => true
  | .wroteSyncPoint => true
  | .disarmedBackup => true
  | _ => false

/-- Everything `run` observes from its external collaborators, one field per
observation point in the source. -/
structure RepoEnv where
  /-- `repo.get_preemptive_sync_enabled()` -/
  preemptive_sync_enabled : Bool
  /-- `repo.get_preemptive_sync_idle_threshold()`, in milliseconds -/
  idle_threshold : Nat
  /-- successive host session-state samples seen by the idle-wait loop -/
  session_states : Nat → SessionStatus
  /-- whether `.git/info/sparse-checkout` `is_file()` -/
  sparse_profile_present : Bool
  /-- whether `ensure_clean::run` returns `Ok` -/
  ensure_clean_ok : Bool
  /-- `repo.get_head_commit()`'s id -/
  head_commit : Nat
  /-- `repo.get_prefetch_head_commit("origin", primary_branch)`'s id -/
  prefetch_commit : Option Nat
  /-- whether `repo.working_tree()` is `Some` -/
  working_tree_present : Bool
  /-- `working_tree.read_sparse_sync_point_ref()`: `some` exactly when the
  read is `Ok(Some(_))`; `Err(_)` and `Ok(None)` both fail the source's
  `if let Ok(Some(..))` pattern and are collapsed to `none` -/
  sync_point : Option Nat
  /-- `working_tree.read_preemptive_sync_point_ref()`, same convention -/
  preemptive_sync_point : Option Nat
  /-- `repo.sync(..)`'s `(pattern_count, checked_out)`; `none` = `Err` -/
  sync_result : Option (Nat × Bool)

/-- The outcome of one embedded `run`: the returned value and the trace of
performed effects, in order. -/
structure RunOutcome where
  result : Except SyncError SyncResult
  trace : List Event

/-- The tail of `run` from `repo.sync(..)` (the `perform("Computing the new
sparse profile", ..)` call) to the end: run the sync, then advance the
appropriate sync point; the `repo.working_tree().unwrap()` calls panic when
the working tree is absent. -/
def performProfileSync (env : RepoEnv) (preemptive : Bool) (commit : Nat) :
    RunOutcome :=
  match env.sync_result with
  | none => ⟨.error .syncFailed, [.ranRepoSync]⟩
  | some (_pattern_count, checked_out) =>
    if preemptive then
      if env.working_tree_present then
        ⟨.ok ⟨checked_out, some commit, .success⟩,
          [.ranRepoSync, .wrotePreemptiveSyncPoint commit]⟩
      else ⟨.error .panicked, [.ranRepoSync]⟩
    else
      if env.working_tree_present then
        ⟨.ok ⟨checked_out, some commit, .success⟩,
          [.ranRepoSync, .wroteSyncPoint, .disarmedBackup]⟩
      else ⟨.error .panicked, [.ranRepoSync]⟩

/-- The preemptive short-circuit of `run` (`if preemptive { if let
Some(working_tree) = .. }`) followed by `performProfileSync`.  Mirrors the
source's `if let Ok(Some(sync_point)) .. else if let Ok(Some(sync_point))`
chain: the preemptive sync point is consulted only when the immediate
sync-point read does not produce a commit. -/
def shortCircuitAndSync (env : RepoEnv) (preemptive : Bool) (commit : Nat) :
    RunOutcome :=
  if preemptive && env.working_tree_present then
    match env.sync_point with
    | some sp =>
      if sp = commit then
        ⟨.ok ⟨false, some commit, .skippedSyncPointUnchanged⟩, []⟩
      else performProfileSync env preemptive commit
    | none =>
      match env.preemptive_sync_point with
      | some sp =>
        if sp = commit then
          ⟨.ok ⟨false, some commit, .skippedSyncPointUnchanged⟩, []⟩
        else performProfileSync env preemptive commit
      | none => performProfileSync env preemptive commit
  else performProfileSync env preemptive commit

/-- Target-commit determination in `run`: the head commit for an immediate
sync, the prefetched head commit of the primary branch for a preemptive
sync, where the absence of a prefetch commit is a `bail!`. -/
def determineCommitAndSync (env : RepoEnv) (preemptive : Bool) : RunOutcome :=
  if preemptive then
    match env.prefetch_commit with
    | some c => shortCircuitAndSync env true c
    | none => ⟨.error .noPrefetchCommit, []⟩
  else shortCircuitAndSync env false env.head_commit

/-- `run` after the sparse-checkout verification: for a non-preemptive sync,
delegate to `ensure_clean::run` and arm the `BackedUpFile` guard around the
sparse profile; a preemptive sync does neither. -/
def runAfterVerify (env : RepoEnv) (preemptive : Bool) : RunOutcome :=
  if preemptive then determineCommitAndSync env true
  else if env.ensure_clean_ok then
    let rest := determineCommitAndSync env false
    ⟨rest.result, .ranEnsureClean :: .createdBackup :: rest.trace⟩
  else ⟨.error .ensureCleanFailed, [.ranEnsureClean]⟩

/-- `run` from the `locking::hold_lock` call on: acquire the sync lock, then
verify the sparse-checkout file exists (its absence is the
not-a-focused-repo `bail!`), then continue. -/
def runLocked (env : RepoEnv) (preemptive : Bool) : RunOutcome :=
  if env.sparse_profile_present then
    let rest := runAfterVerify env preemptive
    ⟨rest.result, .acquiredLock :: .checkedSparseFile :: rest.trace⟩
  else ⟨.error .notFocusedRepo, [.acquiredLock, .checkedSparseFile]⟩

/-- `run(sparse_repo, mode, app)` from `sync.rs`.  For a non-forced
preemptive sync, first check the per-repository enablement flag and then
wait for the machine to be idle; in all other cases proceed directly to the
locked phase. -/
def run (env : RepoEnv) (mode : SyncMode) : RunOutcome :=
  match mode with
  | .normal => runLocked env false
  | .preemptive force =>
    if force then runLocked env true
    else if !env.preemptive_sync_enabled then
      ⟨.ok ⟨false, none, .skippedPreemptiveSyncDisabled⟩, []⟩
    else
      match wait_for_machine_to_be_idle env.session_states env.idle_threshold
          PREEMPTIVE_SYNC_MAX_WAIT_MILLIS PREEMPTIVE_SYNC_POLL_INTERVAL_MILLIS with
      | .error e => ⟨.error (.idleWaitFailed e), [.consultedIdle]⟩
      | .ok true =>
        let rest := runLocked env true
        ⟨rest.result, .consultedIdle :: rest.trace⟩
      | .ok false =>
        ⟨.ok ⟨false, none, .skippedPreemptiveSyncCancelledByActivity⟩,
          [.consultedIdle]⟩

/-- A commit timestamp (`git2::Time`), modelled by its second count;
`status.rs` only ever reads `.seconds()` and the order of times. -/
structure GitTime where
  seconds : Int
deriving DecidableEq

/-- The structured content of the string `relative_time` builds: which
phrase is chosen and, for the first two, the duration (in seconds) fed to
`humantime::format_duration`. -/
inductive RelativeTime where
  | newerThan (seconds : Nat)
  | olderThan (seconds : Nat)
  | theSameAs
deriving DecidableEq

/-- `relative_time(current_commit_time, prospective_commit_time)` from
`status.rs`: `difference = prospective - current`, duration =
`difference.unsigned_abs()`, phrase chosen by comparing the two times. -/
def relative_time (current_commit_time prospective_commit_time : GitTime) :
    RelativeTime :=
  let difference :=
    prospective_commit_time.seconds - current_commit_time.seconds
  let difference_duration := difference.natAbs
  match compare prospective_commit_time.seconds current_commit_time.seconds with
  | .gt => .newerThan difference_duration
  | .lt => .olderThan difference_duration
  | .eq => .theSameAs

/-- `OperationAction` as used by `operation/selection.rs`. -/
inductive OperationAction where
  | add
  | remove
deriving DecidableEq

/-- What the selection operations observe from their collaborators:
the selection manager's `mutate` outcome (`none` = `Err`, `some b` =
`Ok(b)`), and whether `save()` and the triggered sync succeed. -/
structure SelectionEnv where
  mutate_changed : OperationAction → List String → Option Bool
  save_ok : Bool
  sync_ok : Bool

/-- Side effects the selection operations can trigger. -/
inductive SelEvent where
  | saved
  | synced
deriving DecidableEq

/-- `mutate(sparse_repo, sync_if_changed, action, projects_and_targets,
app)` from `operation/selection.rs`: if the selection manager reports a
change, save the selection and, when `sync_if_changed` is set, run a sync;
otherwise do nothing. -/
def mutate (env : SelectionEnv) (sync_if_changed : Bool)
    (action : OperationAction) (projects_and_targets : List String) :
    Except Unit Unit × List SelEvent :=
  match env.mutate_changed action projects_and_targets with
  | none => (.error (), [])
  | some true =>
    if env.save_ok then
      if sync_if_changed then
        if env.sync_ok then (.ok (), [.saved, .synced])
        else (.error (), [.saved, .synced])
      else (.ok (), [.saved])
    else (.error (), [.saved])
  | some false => (.ok (), [])

/-- `add` from `operation/selection.rs`, delegating to `mutate`. -/
def add (env : SelectionEnv) (sync_if_changed : Bool)
    (projects_and_targets : List String) : Except Unit Unit × List SelEvent :=
  mutate env sync_if_changed .add projects_and_targets

/-- `remove` from `operation/selection.rs`, delegating to `mutate`. -/
def remove (env : SelectionEnv) (sync_if_changed : Bool)
    (projects_and_targets : List String) : Except Unit Unit × List SelEvent :=
  mutate env sync_if_changed .remove projects_and_targets

/-- A baseline concrete environment used to instantiate theorems with
hypotheses at explicit inputs. -/
def baseEnv : RepoEnv where
  preemptive_sync_enabled := true
  idle_threshold := 0
  session_states := fun _ => .idle
  sparse_profile_present := true
  ensure_clean_ok := true
  head_commit := 1
  prefetch_commit := some 2
  working_tree_present := true
  sync_point := none
  preemptive_sync_point := none
  sync_result := some (7, true)

/-! ## Theorems -/

theorem waitLoop_eq_false (states : Nat → SessionStatus) :
    ∀ fuel k, (∀ j, j < fuel → states (k + j) = .active) →
      waitLoop states fuel k = false := by
  intro fuel
  induction fuel with
  | zero => intro k _; rfl
  | succ n ih =>
    intro k h
    have h0 : states k = .active := by simpa using h 0 (Nat.succ_pos n)
    have step : waitLoop states (n + 1) k = waitLoop states n (k + 1) := by
      simp [waitLoop, h0]
    rw [step]
    apply ih
    intro j hj
    have h1 := h (j + 1) (by omega)
    have e : k + (j + 1) = k + 1 + j := by omega
    rw [e] at h1
    exact h1

theorem waitLoop_eq_true (states : Nat → SessionStatus) :
    ∀ fuel k, (∃ j, j < fuel ∧ states (k + j) ≠ .active) →
      waitLoop states fuel k = true := by
  intro fuel
  induction fuel with
  | zero =>
    rintro k ⟨j, hj, _⟩
    omega
  | succ n ih =>
    rintro k ⟨j, hj, hne⟩
    cases h0 : states k with
    | active =>
      have step : waitLoop states (n + 1) k = waitLoop states n (k + 1) := by
        simp [waitLoop, h0]
      rw [step]
      apply ih
      rcases j with _ | j
      · exact absurd h0 (by simpa using hne)
      · refine ⟨j, by omega, ?_⟩
        have e : k + 1 + j = k + (j + 1) := by omega
        rw [e]
        exact hne
    | idle => simp [waitLoop, h0]
    | unknown => simp [waitLoop, h0]

/-- C2: `wait_for_machine_to_be_idle(idle_duration, max_wait,
poll_interval)` fails immediately with an invalid-configuration error if
and only if `max_wait < idle_duration` or `poll_interval > max_wait`, and
in that case the outcome is independent of the session-state signal (no
polling or sleeping has occurred). -/
theorem wait_invalid_config_iff (states : Nat → SessionStatus)
    (idle_duration max_wait poll_interval : Nat) :
    ((∃ e, wait_for_machine_to_be_idle states idle_duration max_wait
        poll_interval = .error e) ↔
      (max_wait < idle_duration ∨ poll_interval > max_wait)) ∧
    ((max_wait < idle_duration ∨ poll_interval > max_wait) →
      ∀ otherStates, wait_for_machine_to_be_idle states idle_duration max_wait
          poll_interval =
        wait_for_machine_to_be_idle otherStates idle_duration max_wait
          poll_interval) := by
  constructor
  · unfold wait_for_machine_to_be_idle
    by_cases h1 : max_wait < idle_duration
    · simp [h1]
    · by_cases h2 : poll_interval > max_wait
      · simp [h1, h2]
      · simp [h1, h2]
  · intro h otherStates
    unfold wait_for_machine_to_be_idle
    rcases h with h1 | h2
    · simp [h1]
    · by_cases h1 : max_wait < idle_duration
      · simp [h1]
      · simp [h1, h2]

/-- C2 witness: the concrete configuration `idle_duration = 2000 ms`,
`max_wait = 1000 ms`, `poll_interval = 100 ms` fails immediately. -/
theorem wait_invalid_config_iff_witness :
    ∃ e, wait_for_machine_to_be_idle (fun _ => SessionStatus.active)
      2000 1000 100 = .error e :=
  (wait_invalid_config_iff (fun _ => SessionStatus.active) 2000 1000 100).1.mpr
    (by decide)

/-- C8: with a valid configuration, if within the wait window the loop
obtains a session-state sample that is not `active` (idle, or no state
determinable at all), the wait returns `true`; if every sample within the
window is `active`, it returns `false` once more than `max_wait` has
elapsed. -/
theorem wait_idle_fail_open (states : Nat → SessionStatus)
    (idle_duration max_wait poll_interval : Nat)
    (h1 : ¬ max_wait < idle_duration) (h2 : ¬ poll_interval > max_wait)
    (hp : 0 < poll_interval) :
    ((∃ k, k * poll_interval ≤ max_wait ∧ states k ≠ .active) →
      wait_for_machine_to_be_idle states idle_duration max_wait
        poll_interval = .ok true) ∧
    ((∀ k, k * poll_interval ≤ max_wait → states k = .active) →
      wait_for_machine_to_be_idle states idle_duration max_wait
        poll_interval = .ok false) := by
  constructor
  · rintro ⟨k, hk, hne⟩
    unfold wait_for_machine_to_be_idle
    rw [if_neg h1, if_neg h2]
    congr 1
    apply waitLoop_eq_true
    refine ⟨k, ?_, by simpa using hne⟩
    have hkd : k ≤ max_wait / poll_interval :=
      (Nat.le_div_iff_mul_le hp).mpr hk
    omega
  · intro hall
    unfold wait_for_machine_to_be_idle
    rw [if_neg h1, if_neg h2]
    congr 1
    apply waitLoop_eq_false
    intro j hj
    have hjd : j ≤ max_wait / poll_interval := by omega
    have := (Nat.le_div_iff_mul_le hp).mp hjd
    simpa using hall j this

/-- C8 witness: with samples all idle the wait confirms idleness at once;
with samples all active it times out and returns `false`. -/
theorem wait_idle_fail_open_witness :
    wait_for_machine_to_be_idle (fun _ => SessionStatus.idle) 0 1000 100 =
      .ok true ∧
    wait_for_machine_to_be_idle (fun _ => SessionStatus.active) 0 1000 100 =
      .ok false :=
  ⟨(wait_idle_fail_open (fun _ => SessionStatus.idle) 0 1000 100
      (by decide) (by decide) (by decide)).1 ⟨0, by decide, by decide⟩,
   (wait_idle_fail_open (fun _ => SessionStatus.active) 0 1000 100
      (by decide) (by decide) (by decide)).2 (fun _ _ => rfl)⟩

theorem shortCircuitAndSync_false (env : RepoEnv) (c : Nat) :
    shortCircuitAndSync env false c = performProfileSync env false c := by
  unfold shortCircuitAndSync
  simp

theorem performProfileSync_cases (env : RepoEnv) (p : Bool) (c : Nat) :
    performProfileSync env p c = ⟨.error .syncFailed, [.ranRepoSync]⟩ ∨
    performProfileSync env p c = ⟨.error .panicked, [.ranRepoSync]⟩ ∨
    (∃ co, p = true ∧ performProfileSync env p c =
      ⟨.ok ⟨co, some c, .success⟩,
        [.ranRepoSync, .wrotePreemptiveSyncPoint c]⟩) ∨
    (∃ co, p = false ∧ performProfileSync env p c =
      ⟨.ok ⟨co, some c, .success⟩,
        [.ranRepoSync, .wroteSyncPoint, .disarmedBackup]⟩) := by
  unfold performProfileSync
  rcases hsr : env.sync_result with _ | ⟨pc, co⟩
  · simp
  · cases p <;> by_cases hw : env.working_tree_present = true <;> simp [hw]

theorem shortCircuitAndSync_cases (env : RepoEnv) (p : Bool) (c : Nat) :
    shortCircuitAndSync env p c =
      ⟨.ok ⟨false, some c, .skippedSyncPointUnchanged⟩, []⟩ ∨
    shortCircuitAndSync env p c = performProfileSync env p c := by
  unfold shortCircuitAndSync
  by_cases hg : (p && env.working_tree_present) = true
  · rcases hsp : env.sync_point with _ | sp
    · rcases hpsp : env.preemptive_sync_point with _ | psp
      · simp [hg]
      · by_cases heq : psp = c <;> simp [hg, heq]
    · by_cases heq : sp = c <;> simp [hg, heq]
  · simp [hg]

theorem runAfterVerify_true_trace (env : RepoEnv) :
    (runAfterVerify env true).trace = [] ∨
    (runAfterVerify env true).trace = [Event.ranRepoSync] ∨
    ∃ c, (runAfterVerify env true).trace =
      [Event.ranRepoSync, Event.wrotePreemptiveSyncPoint c] := by
  unfold runAfterVerify determineCommitAndSync
  rcases hpc : env.prefetch_commit with _ | c
  · simp
  · simp only [if_true]
    rcases shortCircuitAndSync_cases env true c with h | h
    · rw [h]; simp
    · rw [h]
      rcases performProfileSync_cases env true c with h2 | h2 | ⟨co, _, h2⟩ |
          ⟨co, hf, h2⟩
      · rw [h2]; simp
      · rw [h2]; simp
      · rw [h2]; right; right; exact ⟨c, rfl⟩
      · exact absurd hf (by simp)

theorem runAfterVerify_false_trace (env : RepoEnv) :
    (runAfterVerify env false).trace = [Event.ranEnsureClean] ∨
    (runAfterVerify env false).trace =
      [Event.ranEnsureClean, Event.createdBackup, Event.ranRepoSync] ∨
    (runAfterVerify env false).trace =
      [Event.ranEnsureClean, Event.createdBackup, Event.ranRepoSync,
        Event.wroteSyncPoint, Event.disarmedBackup] := by
  unfold runAfterVerify determineCommitAndSync
  by_cases hc : env.ensure_clean_ok = true
  · simp only [hc, if_true, if_false, Bool.false_eq_true, reduceIte]
    rw [shortCircuitAndSync_false]
    rcases performProfileSync_cases env false env.head_commit with h2 | h2 |
        ⟨co, hf, h2⟩ | ⟨co, _, h2⟩
    · rw [h2]; simp
    · rw [h2]; simp
    · exact absurd hf (by simp)
    · rw [h2]; simp
  · simp [hc]

theorem runLocked_shape (env : RepoEnv) (p : Bool) :
    ∃ rest, (runLocked env p).trace =
      Event.acquiredLock :: Event.checkedSparseFile :: rest := by
  unfold runLocked
  by_cases hs : env.sparse_profile_present = true
  · simp only [hs, if_true]
    exact ⟨_, rfl⟩
  · simp [hs]

theorem runLocked_noSparse (env : RepoEnv) (p : Bool)
    (hs : env.sparse_profile_present = false) :
    runLocked env p = ⟨.error .notFocusedRepo,
      [Event.acquiredLock, Event.checkedSparseFile]⟩ := by
  unfold runLocked
  simp [hs]

theorem runLocked_trace_rest (env : RepoEnv) (p : Bool) :
    ∀ e ∈ (runLocked env p).trace,
      e = Event.acquiredLock ∨ e = Event.checkedSparseFile ∨
      e = Event.ranEnsureClean ∨ e = Event.createdBackup ∨
      e = Event.ranRepoSync ∨ (∃ c, e = Event.wrotePreemptiveSyncPoint c) ∨
      e = Event.wroteSyncPoint ∨ e = Event.disarmedBackup := by
  intro e he
  unfold runLocked at he
  by_cases hs : env.sparse_profile_present = true
  · simp only [hs, if_true] at he
    simp only [List.mem_cons] at he
    rcases he with rfl | rfl | he
    · tauto
    · tauto
    · cases p
      · rcases runAfterVerify_false_trace env with h | h | h <;>
          rw [h] at he <;> simp at he <;> tauto
      · rcases runAfterVerify_true_trace env with h | h | ⟨c, h⟩ <;>
          rw [h] at he <;> simp at he <;> tauto
  · simp only [hs] at he
    simp at he
    tauto

theorem runLocked_false_eq (env : RepoEnv)
    (hs : env.sparse_profile_present = true)
    (hc : env.ensure_clean_ok = true) :
    runLocked env false =
      ⟨(performProfileSync env false env.head_commit).result,
        [Event.acquiredLock, Event.checkedSparseFile, Event.ranEnsureClean,
          Event.createdBackup] ++
          (performProfileSync env false env.head_commit).trace⟩ := by
  unfold runLocked runAfterVerify determineCommitAndSync
  rw [shortCircuitAndSync_false]
  simp [hs, hc]

theorem runLocked_true_eq (env : RepoEnv) (c : Nat)
    (hs : env.sparse_profile_present = true)
    (hpc : env.prefetch_commit = some c) :
    runLocked env true =
      ⟨(shortCircuitAndSync env true c).result,
        [Event.acquiredLock, Event.checkedSparseFile] ++
          (shortCircuitAndSync env true c).trace⟩ := by
  unfold runLocked runAfterVerify determineCommitAndSync
  simp [hs, hpc]

theorem runLocked_true_noPrefetch (env : RepoEnv)
    (hs : env.sparse_profile_present = true)
    (hpc : env.prefetch_commit = none) :
    runLocked env true = ⟨.error .noPrefetchCommit,
      [Event.acquiredLock, Event.checkedSparseFile]⟩ := by
  unfold runLocked runAfterVerify determineCommitAndSync
  simp [hs, hpc]

theorem performProfileSync_ok (env : RepoEnv) (p : Bool) (c : Nat)
    (r : SyncResult) (h : (performProfileSync env p c).result = .ok r) :
    r.commit_id = some c ∧ r.status = .success := by
  rcases performProfileSync_cases env p c with h2 | h2 | ⟨co, _, h2⟩ |
      ⟨co, _, h2⟩ <;> rw [h2] at h
  · exact absurd h (by simp)
  · exact absurd h (by simp)
  · simp only [Except.ok.injEq] at h
    subst h
    exact ⟨rfl, rfl⟩
  · simp only [Except.ok.injEq] at h
    subst h
    exact ⟨rfl, rfl⟩

theorem runLocked_false_ok (env : RepoEnv) (r : SyncResult)
    (h : (runLocked env false).result = .ok r) :
    r.commit_id = some env.head_commit ∧ r.status = .success := by
  by_cases hs : env.sparse_profile_present = true
  · by_cases hc : env.ensure_clean_ok = true
    · rw [runLocked_false_eq env hs hc] at h
      exact performProfileSync_ok env false env.head_commit r h
    · have hc2 : env.ensure_clean_ok = false := by
        revert hc; cases env.ensure_clean_ok <;> simp
      unfold runLocked runAfterVerify at h
      simp [hs, hc2] at h
  · have hs2 : env.sparse_profile_present = false := by
      revert hs; cases env.sparse_profile_present <;> simp
    rw [runLocked_noSparse env false hs2] at h
    exact absurd h (by simp)

theorem runLocked_false_not_noPrefetch (env : RepoEnv) :
    (runLocked env false).result ≠ .error .noPrefetchCommit := by
  by_cases hs : env.sparse_profile_present = true
  · by_cases hc : env.ensure_clean_ok = true
    · rw [runLocked_false_eq env hs hc]
      rcases performProfileSync_cases env false env.head_commit with h | h |
          ⟨co, hf, h⟩ | ⟨co, _, h⟩
      · rw [h]; simp
      · rw [h]; simp
      · exact absurd hf (by simp)
      · rw [h]; simp
    · have hc2 : env.ensure_clean_ok = false := by
        revert hc; cases env.ensure_clean_ok <;> simp
      unfold runLocked runAfterVerify
      simp [hs, hc2]
  · have hs2 : env.sparse_profile_present = false := by
      revert hs; cases env.sparse_profile_present <;> simp
    rw [runLocked_noSparse env false hs2]
    simp

theorem runLocked_false_success_trace (env : RepoEnv) (r : SyncResult)
    (h : (runLocked env false).result = .ok r) :
    ∃ l, (runLocked env false).trace =
      l ++ [Event.wroteSyncPoint, Event.disarmedBackup] := by
  by_cases hs : env.sparse_profile_present = true
  · by_cases hc : env.ensure_clean_ok = true
    · rw [runLocked_false_eq env hs hc] at h ⊢
      rcases performProfileSync_cases env false env.head_commit with h2 | h2 |
          ⟨co, hf, h2⟩ | ⟨co, _, h2⟩
      · rw [h2] at h; exact absurd h (by simp)
      · rw [h2] at h; exact absurd h (by simp)
      · exact absurd hf (by simp)
      · rw [h2]
        exact ⟨[Event.acquiredLock, Event.checkedSparseFile,
          Event.ranEnsureClean, Event.createdBackup, Event.ranRepoSync], rfl⟩
    · have hc2 : env.ensure_clean_ok = false := by
        revert hc; cases env.ensure_clean_ok <;> simp
      unfold runLocked runAfterVerify at h
      simp [hs, hc2] at h
  · have hs2 : env.sparse_profile_present = false := by
      revert hs; cases env.sparse_profile_present <;> simp
    rw [runLocked_noSparse env false hs2] at h
    exact absurd h (by simp)

theorem runLocked_true_ok_commit (env : RepoEnv) (r : SyncResult)
    (h : (runLocked env true).result = .ok r) :
    ∃ c, env.prefetch_commit = some c ∧ r.commit_id = some c := by
  by_cases hs : env.sparse_profile_present = true
  · rcases hpc : env.prefetch_commit with _ | c
    · rw [runLocked_true_noPrefetch env hs hpc] at h
      exact absurd h (by simp)
    · rw [runLocked_true_eq env c hs hpc] at h
      refine ⟨c, rfl, ?_⟩
      rcases shortCircuitAndSync_cases env true c with h2 | h2 <;> rw [h2] at h
      · simp only [Except.ok.injEq] at h
        subst h
        rfl
      · exact (performProfileSync_ok env true c r h).1
  · have hs2 : env.sparse_profile_present = false := by
      revert hs; cases env.sparse_profile_present <;> simp
    rw [runLocked_noSparse env true hs2] at h
    exact absurd h (by simp)

theorem runLocked_true_success (env : RepoEnv) (r : SyncResult)
    (h : (runLocked env true).result = .ok r) (hst : r.status = .success) :
    ∃ c, r.commit_id = some c ∧
      Event.wrotePreemptiveSyncPoint c ∈ (runLocked env true).trace := by
  by_cases hs : env.sparse_profile_present = true
  · rcases hpc : env.prefetch_commit with _ | c
    · rw [runLocked_true_noPrefetch env hs hpc] at h
      exact absurd h (by simp)
    · rw [runLocked_true_eq env c hs hpc] at h ⊢
      rcases shortCircuitAndSync_cases env true c with h2 | h2 <;> rw [h2] at h ⊢
      · simp only [Except.ok.injEq] at h
        subst h
        simp at hst
      · rcases performProfileSync_cases env true c with h3 | h3 | ⟨co, _, h3⟩ |
            ⟨co, hf, h3⟩
        · rw [h3] at h; exact absurd h (by simp)
        · rw [h3] at h; exact absurd h (by simp)
        · rw [h3] at h ⊢
          simp only [Except.ok.injEq] at h
          subst h
          exact ⟨c, rfl, by simp⟩
        · exact absurd hf (by simp)
  · have hs2 : env.sparse_profile_present = false := by
      revert hs; cases env.sparse_profile_present <;> simp
    rw [runLocked_noSparse env true hs2] at h
    exact absurd h (by simp)

theorem noClean_runLocked_true (env : RepoEnv) :
    Event.ranEnsureClean ∉ (runLocked env true).trace ∧
    Event.createdBackup ∉ (runLocked env true).trace := by
  unfold runLocked
  by_cases hs : env.sparse_profile_present = true
  · simp only [hs, if_true]
    rcases runAfterVerify_true_trace env with h | h | ⟨c, h⟩ <;> rw [h] <;> simp
  · simp [hs]

theorem noClean_preemptive (env : RepoEnv) (f : Bool) :
    Event.ranEnsureClean ∉ (run env (SyncMode.preemptive f)).trace ∧
    Event.createdBackup ∉ (run env (SyncMode.preemptive f)).trace := by
  cases f with
  | true => exact noClean_runLocked_true env
  | false =>
    unfold run
    by_cases he : env.preemptive_sync_enabled = true
    · cases hw : wait_for_machine_to_be_idle env.session_states
          env.idle_threshold PREEMPTIVE_SYNC_MAX_WAIT_MILLIS
          PREEMPTIVE_SYNC_POLL_INTERVAL_MILLIS with
      | error e => simp [he, hw]
      | ok b =>
        cases b with
        | false => simp [he, hw]
        | true =>
          simp only [he, hw]
          have := noClean_runLocked_true env
          constructor <;> intro hmem <;> simp at hmem
          · exact this.1 hmem
          · exact this.2 hmem
    · simp [he]

/-- C4: a non-forced preemptive sync on a repository whose preemptive-sync
enablement flag is unset returns `SkippedPreemptiveSyncDisabled` without
consulting the idleness signal (the trace is empty); a forced preemptive
sync bypasses both the enablement check and the idleness check entirely,
proceeding straight to the locked phase, and never consults the idleness
signal. -/
theorem preemptive_gating (env : RepoEnv) :
    (env.preemptive_sync_enabled = false →
      run env (SyncMode.preemptive false) =
        ⟨.ok ⟨false, none, .skippedPreemptiveSyncDisabled⟩, []⟩) ∧
    run env (SyncMode.preemptive true) = runLocked env true ∧
    Event.consultedIdle ∉ (run env (SyncMode.preemptive true)).trace := by
  refine ⟨?_, rfl, ?_⟩
  · intro h
    unfold run
    simp [h]
  · intro hmem
    rcases runLocked_trace_rest env true Event.consultedIdle hmem with
      h | h | h | h | h | ⟨c, h⟩ | h | h <;> simp at h

/-- C4 witness: with the enablement flag unset, a non-forced preemptive
sync is skipped as disabled with an empty effect trace. -/
theorem preemptive_gating_witness :
    run { baseEnv with preemptive_sync_enabled := false }
      (SyncMode.preemptive false) =
      ⟨.ok ⟨false, none, .skippedPreemptiveSyncDisabled⟩, []⟩ :=
  (preemptive_gating { baseEnv with preemptive_sync_enabled := false }).1 rfl

/-- C7: in a sync pass that reaches the guard-arming step (sparse-checkout
file present, clean check passing), the clean check runs and the sparse
profile is wrapped in a backed-up-file guard if and only if the sync is not
preemptive; moreover a preemptive pass never performs the clean check and
never arms the guard, in any environment. -/
theorem clean_check_iff_not_preemptive (env : RepoEnv) (mode : SyncMode)
    (hs : env.sparse_profile_present = true)
    (hc : env.ensure_clean_ok = true) :
    ((Event.ranEnsureClean ∈ (run env mode).trace ∧
      Event.createdBackup ∈ (run env mode).trace) ↔ mode = SyncMode.normal) ∧
    (∀ env2 : RepoEnv, ∀ f : Bool,
      Event.ranEnsureClean ∉ (run env2 (SyncMode.preemptive f)).trace ∧
      Event.createdBackup ∉ (run env2 (SyncMode.preemptive f)).trace) := by
  constructor
  · constructor
    · rintro ⟨h1, _⟩
      cases mode with
      | normal => rfl
      | preemptive f => exact absurd h1 (noClean_preemptive env f).1
    · rintro rfl
      show Event.ranEnsureClean ∈ (runLocked env false).trace ∧
        Event.createdBackup ∈ (runLocked env false).trace
      rw [runLocked_false_eq env hs hc]
      simp
  · intro env2 f
    exact noClean_preemptive env2 f

/-- C7 witness: an immediate sync on a focused repository with a clean
working tree performs the clean check and arms the guard. -/
theorem clean_check_iff_not_preemptive_witness :
    Event.ranEnsureClean ∈ (run baseEnv SyncMode.normal).trace ∧
    Event.createdBackup ∈ (run baseEnv SyncMode.normal).trace :=
  (clean_check_iff_not_preemptive baseEnv SyncMode.normal rfl rfl).1.mpr rfl

/-- C3 counterexample: on a repository without a sparse-checkout file, the
code acquires the sync lock first and only then performs the
sparse-checkout verification (which fails with the not-a-focused-repository
error), so the verification does not precede the lock acquisition as the
claim states. -/
theorem sync_lock_order_counterexample :
    (run { baseEnv with sparse_profile_present := false }
      SyncMode.normal).trace =
      [Event.acquiredLock, Event.checkedSparseFile] ∧
    (run { baseEnv with sparse_profile_present := false }
      SyncMode.normal).result = .error .notFocusedRepo ∧
    (run { baseEnv with sparse_profile_present := false }
        SyncMode.normal).trace.indexOf Event.acquiredLock <
      (run { baseEnv with sparse_profile_present := false }
        SyncMode.normal).trace.indexOf Event.checkedSparseFile :=
  ⟨rfl, rfl, by decide⟩

/-- C3 (amended): in every sync pass that performs the sparse-checkout
verification, the exclusive sync lock is acquired first and the
verification comes immediately after it; if the sparse-checkout control
file is absent the pass then fails with the fatal
not-a-focused-repository error. -/
theorem sync_lock_then_verify (env : RepoEnv) (mode : SyncMode)
    (h : Event.checkedSparseFile ∈ (run env mode).trace) :
    (∃ pre rest, (run env mode).trace =
      pre ++ Event.acquiredLock :: Event.checkedSparseFile :: rest ∧
      Event.acquiredLock ∉ pre ∧ Event.checkedSparseFile ∉ pre) ∧
    (env.sparse_profile_present = false →
      (run env mode).result = .error .notFocusedRepo) := by
  cases mode with
  | normal =>
    obtain ⟨rest, hrest⟩ := runLocked_shape env false
    refine ⟨⟨[], rest, ?_, by simp, by simp⟩, ?_⟩
    · simpa using hrest
    · intro hs
      show (runLocked env false).result = .error .notFocusedRepo
      rw [runLocked_noSparse env false hs]
  | preemptive f =>
    cases f with
    | true =>
      obtain ⟨rest, hrest⟩ := runLocked_shape env true
      refine ⟨⟨[], rest, ?_, by simp, by simp⟩, ?_⟩
      · simpa using hrest
      · intro hs
        show (runLocked env true).result = .error .notFocusedRepo
        rw [runLocked_noSparse env true hs]
    | false =>
      by_cases he : env.preemptive_sync_enabled = true
      · cases hw : wait_for_machine_to_be_idle env.session_states
            env.idle_threshold PREEMPTIVE_SYNC_MAX_WAIT_MILLIS
            PREEMPTIVE_SYNC_POLL_INTERVAL_MILLIS with
        | error e =>
          have ht : (run env (SyncMode.preemptive false)).trace =
              [Event.consultedIdle] := by
            unfold run; simp [he, hw]
          rw [ht] at h
          simp at h
        | ok b =>
          cases b with
          | false =>
            have ht : (run env (SyncMode.preemptive false)).trace =
                [Event.consultedIdle] := by
              unfold run; simp [he, hw]
            rw [ht] at h
            simp at h
          | true =>
            have hrun : run env (SyncMode.preemptive false) =
                ⟨(runLocked env true).result,
                  Event.consultedIdle :: (runLocked env true).trace⟩ := by
              unfold run; simp [he, hw]
            obtain ⟨rest, hrest⟩ := runLocked_shape env true
            refine ⟨⟨[Event.consultedIdle], rest, ?_, by simp, by simp⟩, ?_⟩
            · rw [hrun]
              simp [hrest]
            · intro hs
              rw [hrun]
              simp [runLocked_noSparse env true hs]
      · have ht : (run env (SyncMode.preemptive false)).trace = [] := by
          unfold run; simp [he]
        rw [ht] at h
        simp at h

/-- C3 (amended) witness: an immediate sync on the baseline repository
reaches the verification, and its trace indeed starts with the lock
acquisition followed immediately by the verification. -/
theorem sync_lock_then_verify_witness :
    ∃ pre rest, (run baseEnv SyncMode.normal).trace =
      pre ++ Event.acquiredLock :: Event.checkedSparseFile :: rest ∧
      Event.acquiredLock ∉ pre ∧ Event.checkedSparseFile ∉ pre :=
  (sync_lock_then_verify baseEnv SyncMode.normal (by decide)).1

/-- C5: an immediate sync targets the working tree's head commit (and never
fails with the no-prefetch-commit error); a preemptive sync targets the
remote's prefetched head commit, and when no prefetched commit exists a
preemptive pass that reaches commit determination fails with the fatal
no-prefetch-commit error. -/
theorem sync_target_commit (env : RepoEnv) :
    (∀ r, (run env SyncMode.normal).result = .ok r →
      r.commit_id = some env.head_commit ∧ r.status = .success) ∧
    (run env SyncMode.normal).result ≠ .error .noPrefetchCommit ∧
    (∀ f : Bool, ∀ r c, (run env (SyncMode.preemptive f)).result = .ok r →
      r.commit_id = some c → env.prefetch_commit = some c) ∧
    (env.sparse_profile_present = true → env.prefetch_commit = none →
      (run env (SyncMode.preemptive true)).result =
        .error .noPrefetchCommit) := by
  refine ⟨?_, ?_, ?_, ?_⟩
  · intro r h
    exact runLocked_false_ok env r h
  · exact runLocked_false_not_noPrefetch env
  · intro f r c hok hc
    cases f with
    | true =>
      obtain ⟨c2, hpc, hcid⟩ := runLocked_true_ok_commit env r hok
      rw [hcid] at hc
      simp only [Option.some.injEq] at hc
      rw [hpc, hc]
    | false =>
      by_cases he : env.preemptive_sync_enabled = true
      · revert hok
        cases hw : wait_for_machine_to_be_idle env.session_states
            env.idle_threshold PREEMPTIVE_SYNC_MAX_WAIT_MILLIS
            PREEMPTIVE_SYNC_POLL_INTERVAL_MILLIS with
        | error e =>
          intro hok
          have : (run env (SyncMode.preemptive false)).result =
              .error (.idleWaitFailed e) := by
            unfold run; simp [he, hw]
          rw [this] at hok
          exact absurd hok (by simp)
        | ok b =>
          cases b with
          | false =>
            intro hok
            have : (run env (SyncMode.preemptive false)).result =
                .ok ⟨false, none, .skippedPreemptiveSyncCancelledByActivity⟩ := by
              unfold run; simp [he, hw]
            rw [this] at hok
            simp only [Except.ok.injEq] at hok
            rw [← hok] at hc
            exact absurd hc (by simp)
          | true =>
            intro hok
            have : (run env (SyncMode.preemptive false)).result =
                (runLocked env true).result := by
              unfold run; simp [he, hw]
            rw [this] at hok
            obtain ⟨c2, hpc, hcid⟩ := runLocked_true_ok_commit env r hok
            rw [hcid] at hc
            simp only [Option.some.injEq] at hc
            rw [hpc, hc]
      · have : (run env (SyncMode.preemptive false)).result =
            .ok ⟨false, none, .skippedPreemptiveSyncDisabled⟩ := by
          unfold run; simp [he]
        rw [this] at hok
        simp only [Except.ok.injEq] at hok
        rw [← hok] at hc
        exact absurd hc (by simp)
  · intro hs hpc
    show (runLocked env true).result = .error .noPrefetchCommit
    rw [runLocked_true_noPrefetch env hs hpc]

/-- C5 witness: a forced preemptive sync on a focused repository without a
prefetched commit fails with the no-prefetch-commit error. -/
theorem sync_target_commit_witness :
    (run { baseEnv with prefetch_commit := none }
      (SyncMode.preemptive true)).result = .error .noPrefetchCommit :=
  (sync_target_commit { baseEnv with prefetch_commit := none }).2.2.2 rfl rfl

/-- C6: on every pass returning status `Success`, a preemptive pass wrote
the preemptive sync-point reference to the target commit, and an immediate
pass wrote the immediate sync-point reference and then disarmed the
backed-up-file guard (the trace ends with exactly those two effects, in
that order). -/
theorem sync_point_advance (env : RepoEnv) (mode : SyncMode) (r : SyncResult)
    (hok : (run env mode).result = .ok r) (hst : r.status = .success) :
    (∀ f : Bool, mode = SyncMode.preemptive f → ∃ c, r.commit_id = some c ∧
      Event.wrotePreemptiveSyncPoint c ∈ (run env mode).trace) ∧
    (mode = SyncMode.normal → ∃ l, (run env mode).trace =
      l ++ [Event.wroteSyncPoint, Event.disarmedBackup]) := by
  constructor
  · rintro f rfl
    cases f with
    | true => exact runLocked_true_success env r hok hst
    | false =>
      by_cases he : env.preemptive_sync_enabled = true
      · revert hok
        cases hw : wait_for_machine_to_be_idle env.session_states
            env.idle_threshold PREEMPTIVE_SYNC_MAX_WAIT_MILLIS
            PREEMPTIVE_SYNC_POLL_INTERVAL_MILLIS with
        | error e =>
          intro hok
          have : (run env (SyncMode.preemptive false)).result =
              .error (.idleWaitFailed e) := by
            unfold run; simp [he, hw]
          rw [this] at hok
          exact absurd hok (by simp)
        | ok b =>
          cases b with
          | false =>
            intro hok
            have : (run env (SyncMode.preemptive false)).result =
                .ok ⟨false, none, .skippedPreemptiveSyncCancelledByActivity⟩ := by
              unfold run; simp [he, hw]
            rw [this] at hok
            simp only [Except.ok.injEq] at hok
            rw [← hok] at hst
            exact absurd hst (by simp)
          | true =>
            intro hok
            have hres : (run env (SyncMode.preemptive false)).result =
                (runLocked env true).result := by
              unfold run; simp [he, hw]
            have htr : (run env (SyncMode.preemptive false)).trace =
                Event.consultedIdle :: (runLocked env true).trace := by
              unfold run; simp [he, hw]
            rw [hres] at hok
            obtain ⟨c, hcid, hmem⟩ := runLocked_true_success env r hok hst
            refine ⟨c, hcid, ?_⟩
            rw [htr]
            exact List.mem_cons_of_mem _ hmem
      · have : (run env (SyncMode.preemptive false)).result =
            .ok ⟨false, none, .skippedPreemptiveSyncDisabled⟩ := by
          unfold run; simp [he]
        rw [this] at hok
        simp only [Except.ok.injEq] at hok
        rw [← hok] at hst
        exact absurd hst (by simp)
  · rintro rfl
    exact runLocked_false_success_trace env r hok

/-- C6 witness: a successful immediate sync on the baseline repository ends
its effect trace with the sync-point write followed by the guard
disarming. -/
theorem sync_point_advance_witness :
    ∃ l, (run baseEnv SyncMode.normal).trace =
      l ++ [Event.wroteSyncPoint, Event.disarmedBackup] :=
  (sync_point_advance baseEnv SyncMode.normal ⟨true, some 1, .success⟩
    rfl rfl).2 rfl

/-- C1 counterexample: a non-forced preemptive sync whose candidate
(prefetched) commit `2` equals the existing preemptive sync point, but
where an immediate sync point (`1`, different from the candidate) also
exists, does NOT skip: it performs the full sync and returns `Success`,
because the source consults the preemptive sync point only in the `else`
branch of the immediate sync-point check. -/
theorem preemptive_short_circuit_counterexample :
    ({ baseEnv with sync_point := some 1, preemptive_sync_point := some 2 } :
      RepoEnv).preemptive_sync_point = some 2 ∧
    ({ baseEnv with sync_point := some 1, preemptive_sync_point := some 2 } :
      RepoEnv).prefetch_commit = some 2 ∧
    (run { baseEnv with sync_point := some 1, preemptive_sync_point := some 2 }
      (SyncMode.preemptive false)).result = .ok ⟨true, some 2, .success⟩ ∧
    Event.ranRepoSync ∈
      (run { baseEnv with sync_point := some 1, preemptive_sync_point := some 2 }
        (SyncMode.preemptive false)).trace :=
  ⟨rfl, rfl, rfl, by decide⟩

/-- C1 (amended): in a non-forced preemptive pass that reaches the
short-circuit check (enabled, idleness confirmed, sparse-checkout file
present, working tree present), if the candidate prefetched commit equals
the existing immediate sync point, or no immediate sync point can be read
and the candidate equals the existing preemptive sync point, then the pass
returns `SkippedSyncPointUnchanged` and performs no filesystem mutation. -/
theorem preemptive_short_circuit (env : RepoEnv) (c : Nat)
    (hen : env.preemptive_sync_enabled = true)
    (hwait : wait_for_machine_to_be_idle env.session_states env.idle_threshold
      PREEMPTIVE_SYNC_MAX_WAIT_MILLIS PREEMPTIVE_SYNC_POLL_INTERVAL_MILLIS =
      .ok true)
    (hs : env.sparse_profile_present = true)
    (hw : env.working_tree_present = true)
    (hpc : env.prefetch_commit = some c)
    (hsp : env.sync_point = some c ∨
      (env.sync_point = none ∧ env.preemptive_sync_point = some c)) :
    (run env (SyncMode.preemptive false)).result =
      .ok ⟨false, some c, .skippedSyncPointUnchanged⟩ ∧
    ∀ e ∈ (run env (SyncMode.preemptive false)).trace,
      e.isMutation = false := by
  have hscs : shortCircuitAndSync env true c =
      ⟨.ok ⟨false, some c, .skippedSyncPointUnchanged⟩, []⟩ := by
    unfold shortCircuitAndSync
    rcases hsp with h | ⟨h1, h2⟩
    · simp [hw, h]
    · simp [hw, h1, h2]
  have hrun : run env (SyncMode.preemptive false) =
      ⟨.ok ⟨false, some c, .skippedSyncPointUnchanged⟩,
        [Event.consultedIdle, Event.acquiredLock, Event.checkedSparseFile]⟩ := by
    unfold run
    simp [hen, hwait, runLocked_true_eq env c hs hpc, hscs]
  rw [hrun]
  refine ⟨rfl, ?_⟩
  intro e he
  simp only [List.mem_cons, List.not_mem_nil, or_false] at he
  rcases he with rfl | rfl | rfl <;> rfl

/-- C1 (amended) witness: with no immediate sync point and the preemptive
sync point equal to the prefetched commit, the non-forced preemptive sync
returns `SkippedSyncPointUnchanged`. -/
theorem preemptive_short_circuit_witness :
    (run { baseEnv with preemptive_sync_point := some 2 }
      (SyncMode.preemptive false)).result =
      .ok ⟨false, some 2, .skippedSyncPointUnchanged⟩ :=
  (preemptive_short_circuit { baseEnv with preemptive_sync_point := some 2 } 2
    rfl rfl rfl rfl rfl (Or.inr ⟨rfl, rfl⟩)).1

/-- C9: for every selection mutation operation (add and remove both route
through `mutate`): the selection is saved exactly when the underlying
mutate reports a change; a sync is triggered only when additionally the
`sync_if_changed` flag is set (and is triggered when, further, the save
succeeds); and when mutate reports no change, nothing is persisted, no
sync runs and the operation returns `Ok`. -/
theorem selection_mutation_effects (env : SelectionEnv)
    (sync_if_changed : Bool) (action : OperationAction)
    (names : List String) :
    (SelEvent.saved ∈ (mutate env sync_if_changed action names).2 ↔
      env.mutate_changed action names = some true) ∧
    (SelEvent.synced ∈ (mutate env sync_if_changed action names).2 →
      env.mutate_changed action names = some true ∧
        sync_if_changed = true) ∧
    (env.mutate_changed action names = some true → env.save_ok = true →
      sync_if_changed = true →
      SelEvent.synced ∈ (mutate env sync_if_changed action names).2) ∧
    (env.mutate_changed action names = some false →
      mutate env sync_if_changed action names = (.ok (), [])) ∧
    add env sync_if_changed names = mutate env sync_if_changed .add names ∧
    remove env sync_if_changed names =
      mutate env sync_if_changed .remove names := by
  refine ⟨?_, ?_, ?_, ?_, rfl, rfl⟩ <;>
    unfold mutate <;>
    rcases hm : env.mutate_changed action names with _ | b
  · simp
  · cases b <;> by_cases hsave : env.save_ok = true <;>
      by_cases hsync : sync_if_changed = true <;>
      by_cases hok : env.sync_ok = true <;>
      simp [hsave, hsync, hok]
  · simp
  · cases b <;> by_cases hsave : env.save_ok = true <;>
      by_cases hsync : sync_if_changed = true <;>
      by_cases hok : env.sync_ok = true <;>
      simp [hsave, hsync, hok]
  · simp
  · cases b <;> by_cases hsave : env.save_ok = true <;>
      by_cases hsync : sync_if_changed = true <;>
      by_cases hok : env.sync_ok = true <;>
      simp [hsave, hsync, hok]
  · simp
  · cases b <;> by_cases hsave : env.save_ok = true <;>
      by_cases hsync : sync_if_changed = true <;>
      by_cases hok : env.sync_ok = true <;>
      simp [hsave, hsync, hok]

/-- C9 witness: with a change reported, a succeeding save and the
`sync_if_changed` flag set, the add operation triggers a sync. -/
theorem selection_mutation_effects_witness :
    SelEvent.synced ∈
      (mutate ⟨fun _ _ => some true, true, true⟩ true OperationAction.add
        ["x"]).2 :=
  (selection_mutation_effects ⟨fun _ _ => some true, true, true⟩ true
    OperationAction.add ["x"]).2.2.1 rfl rfl rfl

/-- C10: `relative_time` reports "newer than" exactly when the prospective
(prefetched upstream) commit time compares greater than the current commit
time, "older than" exactly when it compares less, and the same-age phrase
exactly when the two times compare equal, with the reported duration equal
to the absolute difference of the two timestamps' second counts. -/
theorem relative_time_spec (current prospective : GitTime) :
    (∀ n, relative_time current prospective = .newerThan n ↔
      current.seconds < prospective.seconds ∧
        n = (prospective.seconds - current.seconds).natAbs) ∧
    (∀ n, relative_time current prospective = .olderThan n ↔
      prospective.seconds < current.seconds ∧
        n = (prospective.seconds - current.seconds).natAbs) ∧
    (relative_time current prospective = .theSameAs ↔
      prospective.seconds = current.seconds) := by
  unfold relative_time
  rcases lt_trichotomy prospective.seconds current.seconds with h | h | h
  · rw [compare_lt_iff_lt.mpr h]
    refine ⟨?_, ?_, ?_⟩
    · intro n
      simp [not_lt.mpr (le_of_lt h)]
    · intro n
      simp [h]
      omega
    · simp
      omega
  · rw [compare_eq_iff_eq.mpr h]
    refine ⟨?_, ?_, ?_⟩
    · intro n
      simp
      omega
    · intro n
      simp
      omega
    · simp [h]
  · rw [compare_gt_iff_gt.mpr h]
    refine ⟨?_, ?_, ?_⟩
    · intro n
      simp [h]
      omega
    · intro n
      simp [not_lt.mpr (le_of_lt h)]
    · simp
      omega

/-- C10 witness: concrete instances of the three phrases. -/
theorem relative_time_spec_witness :
    relative_time ⟨10⟩ ⟨25⟩ = .newerThan 15 ∧
    relative_time ⟨25⟩ ⟨10⟩ = .olderThan 15 ∧
    relative_time ⟨10⟩ ⟨10⟩ = .theSameAs :=
  ⟨((relative_time_spec ⟨10⟩ ⟨25⟩).1 15).mpr (by constructor <;> decide),
   ((relative_time_spec ⟨25⟩ ⟨10⟩).2.1 15).mpr (by constructor <;> decide),
   (relative_time_spec ⟨10⟩ ⟨10⟩).2.2.mpr (by decide)⟩

end Focus
